import Mathlib

/-!
Verification of the scvelo dynamical model core
(`scvelo/tools/dynamical_model_utils.py`, `scvelo/tools/dynamical_model.py`).

Embedding conventions.  The Python source computes with numpy floating-point
arrays; we embed the arithmetic over the real numbers `ℝ`, per-cell arrays as
`List ℝ`, and `None`-able arguments as `Option`.  Lean's conventions
`x / 0 = 0`, `Real.sqrt` of a negative number `= 0` and `Real.log` of a
non-positive number `= 0` replace the IEEE special values on the nan-free
paths; where the source's behaviour hinges on IEEE special values
(`inf * 0 = nan` inside `inv`) we model that spot separately with an explicit
extended value type (`FloatVal` below).  Code paths on which the Python source
raises an exception are modelled by returning `none`.
-/

namespace Scvelo

noncomputable section

/-- `np.clip(x, lo, hi)`, which numpy documents as `min(hi, max(x, lo))`. -/
def clip (x lo hi : ℝ) : ℝ := min hi (max x lo)

/-- `log(x, eps)` from `dynamical_model_utils.py`: `np.log(np.clip(x, eps, 1 - eps))`.
The source gives `eps` the default value `1e-6`; we pass it explicitly. -/
def log (x eps : ℝ) : ℝ := Real.log (clip x eps (1 - eps))

/-- `inv(x) = 1 / x * (x != 0)`, transcribed over `ℝ` (where `1 / 0 = 0`).
Under IEEE arithmetic the same expression yields `nan` at `x = 0`; that
behaviour is modelled exactly by `finv` on `FloatVal` below. -/
def inv (x : ℝ) : ℝ := 1 / x * (if x = 0 then 0 else 1)

/-- `unspliced(tau, u0, alpha, beta)` from `dynamical_model_utils.py`. -/
def unspliced (tau u0 alpha beta : ℝ) : ℝ :=
  let expu := Real.exp (-beta * tau)
  u0 * expu + alpha / beta * (1 - expu)

/-- `spliced(tau, s0, u0, alpha, beta, gamma)` from `dynamical_model_utils.py`. -/
def spliced (tau s0 u0 alpha beta gamma : ℝ) : ℝ :=
  let c := (alpha - u0 * beta) * inv (gamma - beta)
  let expu := Real.exp (-beta * tau)
  let exps := Real.exp (-gamma * tau)
  s0 * exps + alpha / gamma * (1 - exps) + c * (exps - expu)

/-- `tau_u(u, u0, alpha, beta)` from `dynamical_model_utils.py`
(`eps = 1e-6` is the source's default for `log`). -/
def tau_u (u u0 alpha beta : ℝ) : ℝ :=
  -1 / beta * log ((u - alpha / beta) / (u0 - alpha / beta)) 1e-6

/-- `tau_inv(u, s, u0, s0, alpha, beta, gamma)` from `dynamical_model_utils.py`. -/
def tau_inv (u s u0 s0 alpha beta gamma : ℝ) : ℝ :=
  let beta_ := beta * inv (gamma - beta)
  let ceta_ := alpha / gamma - beta_ * (alpha / beta)
  let c0 := s0 - beta_ * u0 - ceta_
  let cs := s - beta_ * u - ceta_
  let tau := -1 / gamma * log (cs / c0) 1e-6
  tau

/-- `np.max` over a list.  numpy raises on an empty array; callers below route
that case to `none`, and the `0` returned here for `[]` is never reached. -/
def npMax : List ℝ → ℝ
  | [] => 0
  | x :: xs => xs.foldl max x

/-- The induction-branch candidate time of one cell:
`np.clip(tau_inv(u, s, 0, 0, alpha, beta, gamma), 0, t0_)`
(`assign_timepoints` lines 117-118). -/
def cellTauOn (alpha beta gamma t0_ u s : ℝ) : ℝ :=
  clip (tau_inv u s 0 0 alpha beta gamma) 0 t0_

/-- The repression-branch candidate time of one cell:
`np.clip(tau_inv(u, s, u0_, s0_, 0, beta, gamma), 0, M)` where `M` is the
whole-gene reduction `np.max(tau_[s > 0])` (`assign_timepoints` lines
120-121). -/
def cellTauOff (beta gamma u0_ s0_ M u s : ℝ) : ℝ :=
  clip (tau_inv u s u0_ s0_ 0 beta gamma) 0 M

/-- One cell of the induction curve `xt` (`assign_timepoints` line 123). -/
def onPoint (alpha beta gamma tau : ℝ) : ℝ × ℝ :=
  (unspliced tau 0 alpha beta, spliced tau 0 0 alpha beta gamma)

/-- One cell of the repression curve `xt_` (`assign_timepoints` line 124). -/
def offPoint (beta gamma u0_ s0_ tau : ℝ) : ℝ × ℝ :=
  (unspliced tau u0_ 0 beta, spliced tau s0_ u0_ 0 beta gamma)

/-- One cell of `np.linalg.norm(xt - x_obs, axis=1)`. -/
def dist2 (p q : ℝ × ℝ) : ℝ :=
  Real.sqrt ((p.1 - q.1) ^ 2 + (p.2 - q.2) ^ 2)

/-- One cell of `assign_timepoints` lines 117-132, after the switch state
`(t0_, u0_, s0_)` and the clip bound `M` have been resolved; returns the
triple `(t, tau, o)`.  `np.argmin([diffx_, diffx])` is `1` exactly when
`diffx < diffx_` (ties go to the first row, the repression branch). -/
def atCell (alpha beta gamma t0_ u0_ s0_ M u s : ℝ) : ℝ × ℝ × ℝ :=
  let tau := cellTauOn alpha beta gamma t0_ u s
  let tau_ := cellTauOff beta gamma u0_ s0_ M u s
  let diffx := dist2 (onPoint alpha beta gamma tau) (u, s)
  let diffx_ := dist2 (offPoint beta gamma u0_ s0_ tau_) (u, s)
  let o : ℝ := if diffx < diffx_ then 1 else 0
  let tauF := tau * o + tau_ * (1 - o)
  (tauF * o + (tau_ + t0_) * (1 - o), tauF, o)

/-- Lines 111-112 of `assign_timepoints`: `t0_ = tau_u(u0_, 0, alpha, beta)`
when the argument is `None`; both `t0_` and `u0_` missing is a `TypeError`
in the source, modelled as `none`. -/
def atSwitch (alpha beta : ℝ) : Option ℝ → Option ℝ → Option ℝ
  | some t, _ => some t
  | none, some v => some (tau_u v 0 alpha beta)
  | none, none => none

/-- Lines 113-115 of `assign_timepoints`: `(u0_, s0_)` are recomputed from
`t0_` when either is `None`. -/
def atInit (alpha beta gamma t0_ : ℝ) : Option ℝ → Option ℝ → ℝ × ℝ
  | some a, some b => (a, b)
  | _, _ => (unspliced t0_ 0 alpha beta, spliced t0_ 0 0 alpha beta gamma)

/-- The resolved `(t0_, u0_, s0_, M)` of one `assign_timepoints` call, where
`M` is the reduction `np.max(tau_[s > 0])` of line 121.  Returns `none` where
the source raises: no cell with `s > 0` means `np.max` of an empty array. -/
def atResolve (u s : List ℝ) (alpha beta gamma : ℝ) (t0O u0O s0O : Option ℝ) :
    Option (ℝ × ℝ × ℝ × ℝ) :=
  (atSwitch alpha beta t0O u0O).bind fun t0_ =>
    let p := atInit alpha beta gamma t0_ u0O s0O
    let tauRaw := (u.zip s).map fun q => tau_inv q.1 q.2 p.1 p.2 0 beta gamma
    let masked := (tauRaw.zip s).filterMap fun q => if 0 < q.2 then some q.1 else none
    if masked.isEmpty then none else some (t0_, p.1, p.2, npMax masked)

/-- `assign_timepoints(u, s, alpha, beta, gamma, t0_, u0_, s0_)` from
`dynamical_model_utils.py` lines 110-134, returning per-cell triples
`(t, tau, o)` (the source returns three parallel arrays). -/
def assign_timepoints (u s : List ℝ) (alpha beta gamma : ℝ)
    (t0O u0O s0O : Option ℝ) : Option (List (ℝ × ℝ × ℝ)) :=
  match atResolve u s alpha beta gamma t0O u0O s0O with
  | none => none
  | some (t0_, u0_, s0_, M) =>
      some ((u.zip s).map fun q => atCell alpha beta gamma t0_ u0_ s0_ M q.1 q.2)

/-- The model point on the branch indicated by `o` (`1` = induction from the
origin, `0` = repression anchored at `(u0_, s0_)`), evaluated at time `tau`. -/
def reconPoint (alpha beta gamma u0_ s0_ : ℝ) (o tau : ℝ) : ℝ × ℝ :=
  if o = 1 then onPoint alpha beta gamma tau else offPoint beta gamma u0_ s0_ tau

/-- The candidate time on the branch that `atCell` rejected. -/
def rejTau (alpha beta gamma t0_ u0_ s0_ M u s : ℝ) : ℝ :=
  let tau := cellTauOn alpha beta gamma t0_ u s
  let tau_ := cellTauOff beta gamma u0_ s0_ M u s
  let o : ℝ := if dist2 (onPoint alpha beta gamma tau) (u, s) <
      dist2 (offPoint beta gamma u0_ s0_ tau_) (u, s) then 1 else 0
  tau * (1 - o) + tau_ * o

/-!
`tau_s` (`dynamical_model_utils.py` lines 45-72): iterative inverse of the
spliced dynamics.  Per-cell quantities (`alpha`, `s`, `tau`) are lists;
`u0`, `s0`, `beta`, `gamma` are scalars.  Where the source's float
arithmetic produces `nan` from `np.sqrt` of a negative discriminant, the
subsequent `np.nan_to_num` maps the affected entry to `0`; that combination
is modelled explicitly by the `term < 0` tests below.
-/

/-- `b0 = (alpha - beta * u0) * inv(gamma - beta)` (line 49), per entry. -/
def tauSb0 (u0 beta gamma aI : ℝ) : ℝ := (aI - beta * u0) * inv (gamma - beta)

/-- `g0 = s0 - alpha / gamma + b0` (line 50), per entry. -/
def tauSg0 (s0 u0 beta gamma aI : ℝ) : ℝ := s0 - aI / gamma + tauSb0 u0 beta gamma aI

/-- One entry of the quadratic coefficients `(a, b, c)` of lines 58-64. -/
def tauSabc (u0 s0 beta gamma : ℝ) (aI sI tI : ℝ) : ℝ × ℝ × ℝ :=
  let expu := tauSb0 u0 beta gamma aI * Real.exp (-beta * tI)
  let exps := tauSg0 s0 u0 beta gamma aI * Real.exp (-gamma * tI)
  let f := exps - expu + aI / gamma
  let ft := -gamma * exps + beta * expu
  let ftt := gamma ^ 2 * exps - beta ^ 2 * expu
  (ftt / 2, ft, f - sI)

/-- One entry of the discriminant `term = b ** 2 - 4 * a * c` (line 65). -/
def tauSTerm (u0 s0 beta gamma : ℝ) (aI sI tI : ℝ) : ℝ :=
  let q := tauSabc u0 s0 beta gamma aI sI tI
  q.2.1 ^ 2 - 4 * q.1 * q.2.2

/-- One entry of the update of lines 66-69 for the `np.any(term > 0)` branch:
`nan_to_num` of `tau_prev + update` (times the `s != 0` mask), with the
`term < 0` tests standing for the `nan` produced by `np.sqrt`. -/
def tauSNew (u0 s0 beta gamma : ℝ) (mixed : Bool) (aI sI tI : ℝ) : ℝ :=
  let q := tauSabc u0 s0 beta gamma aI sI tI
  let a := q.1
  let b := q.2.1
  let c := q.2.2
  let term := b ^ 2 - 4 * a * c
  let upd0 := (-b + Real.sqrt term) / (2 * a)
  let update := if mixed then
      (if term < 0 then 0 else upd0) * (if 0 < aI then 1 else 0) +
        (-c / b) * (if aI ≤ 0 then 1 else 0)
    else upd0
  (if term < 0 ∧ mixed = false then 0 else tI + update) * (if sI ≠ 0 then 1 else 0)

/-- The per-cell tuples `(alpha_i, s_i, tau_i)` the loop body works on. -/
def tauSEntries (alpha s tau : List ℝ) : List (ℝ × ℝ × ℝ) := alpha.zip (s.zip tau)

/-- `np.any(term > 0)` (line 69). -/
def tauSAnyPos (u0 s0 beta gamma : ℝ) (alpha s tau : List ℝ) : Prop :=
  ∃ e ∈ tauSEntries alpha s tau, 0 < tauSTerm u0 s0 beta gamma e.1 e.2.1 e.2.2

instance (u0 s0 beta gamma : ℝ) (alpha s tau : List ℝ) :
    Decidable (tauSAnyPos u0 s0 beta gamma alpha s tau) := by
  unfold tauSAnyPos; infer_instance

/-- One pass of lines 58-69: when no discriminant is positive the whole
time vector is shrunk to `tau_prev / 10`, otherwise each entry is updated. -/
def tauSStep (u0 s0 beta gamma : ℝ) (mixed : Bool) (alpha s tau : List ℝ) : List ℝ :=
  if tauSAnyPos u0 s0 beta gamma alpha s tau then
    (tauSEntries alpha s tau).map fun e => tauSNew u0 s0 beta gamma mixed e.1 e.2.1 e.2.2
  else tau.map fun x => x / 10

/-- The residual `loss` of line 70. -/
def tauSLoss (u0 s0 beta gamma : ℝ) (alpha s tau : List ℝ) : ℝ :=
  npMax ((tauSEntries alpha s tau).map fun e =>
    |e.1 / gamma + tauSg0 s0 u0 beta gamma e.1 * Real.exp (-gamma * e.2.2) -
      tauSb0 u0 beta gamma e.1 * Real.exp (-beta * e.2.2) - e.2.1|)

/-- `np.abs(tau - tau_prev).max()` (line 55). -/
def maxAbsDiff (tau tauPrev : List ℝ) : ℝ :=
  npMax (List.zipWith (fun a b => |a - b|) tau tauPrev)

/-- The `while` loop of lines 55-70, with the remaining iteration budget
(`max_iter - n_iter`, initially `max_iter = 10`) as fuel; also returns the
number of iterations actually run. -/
def tauSGo (u0 s0 beta gamma eps : ℝ) (mixed : Bool) (alpha s : List ℝ) :
    ℕ → List ℝ → List ℝ → ℝ → List ℝ × ℕ
  | 0, _, tau, _ => (tau, 0)
  | fuel + 1, tauPrev, tau, loss =>
    if eps < maxAbsDiff tau tauPrev ∧ eps < loss then
      let tau2 := tauSStep u0 s0 beta gamma mixed alpha s tau
      let loss2 := tauSLoss u0 s0 beta gamma alpha s tau2
      let r := tauSGo u0 s0 beta gamma eps mixed alpha s fuel tau tau2 loss2
      (r.1, r.2 + 1)
    else (tau, 0)

/-- Lines 46-47: the initial `tau` (the given one, else `tau_u(u, ...)`, else
the scalar `1`, broadcast to the cell count `n`). -/
def tauSInit (u0 beta : ℝ) (alpha : List ℝ) (n : ℕ) :
    Option (List ℝ) → Option (List ℝ) → List ℝ
  | _, some t => t
  | some ul, none => List.zipWith (fun uI aI => tau_u uI u0 aI beta) ul alpha
  | none, none => List.replicate n 1

/-- `tau_s(s, s0, u0, alpha, beta, gamma, u, tau, eps)` lines 45-72.
`tau_prev` starts as the scalar `1e6` (broadcast), `loss` starts `1e6`,
`max_iter = 10`, and the result is `np.clip(tau, 0, None)`.  The source's
defaults are `u = tau = None`, `eps = 1e-2`. -/
def tau_s (s : List ℝ) (s0 u0 : ℝ) (alpha : List ℝ) (beta gamma : ℝ)
    (uO tauO : Option (List ℝ)) (eps : ℝ) : List ℝ :=
  let tau0 := tauSInit u0 beta alpha s.length uO tauO
  let mixed := decide (∃ a ∈ alpha, a = 0)
  ((tauSGo u0 s0 beta gamma eps mixed alpha s 10
      (List.replicate tau0.length 1000000) tau0 1000000).1).map fun x => max x 0

/-- The iteration count of the `tau_s` loop (`n_iter` at exit). -/
def tauSIters (s : List ℝ) (s0 u0 : ℝ) (alpha : List ℝ) (beta gamma : ℝ)
    (uO tauO : Option (List ℝ)) (eps : ℝ) : ℕ :=
  let tau0 := tauSInit u0 beta alpha s.length uO tauO
  let mixed := decide (∃ a ∈ alpha, a = 0)
  (tauSGo u0 s0 beta gamma eps mixed alpha s 10
      (List.replicate tau0.length 1000000) tau0 1000000).2

/-!
`DynamicsRecovery.update_loss` (`dynamical_model.py` lines 189-233): the
accept-if-improves step.  The per-gene mutable fit state is `DMState`; the
`BaseDynamics` helpers `get_loss`, `get_optimal_switch` and
`get_time_assignment` are not among the sources under analysis, so they enter
as function parameters and every theorem below holds for all of them.
-/

/-- The per-gene fit state of `DynamicsRecovery` that `update_loss` reads and
writes.  `o` is a list of reals (numpy keeps it as an int/bool array that is
used in arithmetic); `pars` is the snapshot matrix as a list of its columns. -/
structure DMState where
  t : List ℝ
  tau : List ℝ
  o : List ℝ
  t_ : ℝ
  alpha : ℝ
  beta : ℝ
  gamma : ℝ
  scaling : ℝ
  pars : List (List ℝ)
  loss : List ℝ

/-- The keyword arguments of `update_loss` (`report` only prints and is
omitted; the source defaults are all-`None`, `reassign_time = False`,
`clip_loss = True`). -/
structure ULArgs where
  t : Option (List ℝ)
  t_ : Option ℝ
  alpha : Option ℝ
  beta : Option ℝ
  gamma : Option ℝ
  scaling : Option ℝ
  reassign_time : Bool
  clip_loss : Bool

/-- `loss_prev = self.loss[-1] if len(self.loss) > 0 else 1e6` (line 195). -/
def lossPrevOf (st : DMState) : ℝ := (st.loss.getLast?).getD 1000000

/-- The local `t_` after lines 203-204: when `reassign_time`, a missing `t_`
is filled in by `get_optimal_switch`. -/
def ulT_ (getSwitch : DMState → Option ℝ → Option ℝ → Option ℝ → ℝ)
    (a : ULArgs) (st : DMState) : Option ℝ :=
  if a.reassign_time then some (a.t_.getD (getSwitch st a.alpha a.beta a.gamma))
  else a.t_

/-- The local `t` after line 205: when `reassign_time`, it is recomputed by
`get_time_assignment` (whose `tau`, `o` components are discarded by the
source: lines 222-223 recompute them from `t`). -/
def ulT (getSwitch : DMState → Option ℝ → Option ℝ → Option ℝ → ℝ)
    (getAssign : DMState → ℝ → Option ℝ → Option ℝ → Option ℝ →
      List ℝ × List ℝ × List ℝ)
    (a : ULArgs) (st : DMState) : Option (List ℝ) :=
  if a.reassign_time then
    some (getAssign st (a.t_.getD (getSwitch st a.alpha a.beta a.gamma))
      a.alpha a.beta a.gamma).1
  else a.t

/-- The candidate loss of line 207. -/
def ulCandLoss
    (getLoss : DMState → Option (List ℝ) → Option ℝ → Option ℝ → Option ℝ →
      Option ℝ → Option ℝ → ℝ)
    (getSwitch : DMState → Option ℝ → Option ℝ → Option ℝ → ℝ)
    (getAssign : DMState → ℝ → Option ℝ → Option ℝ → Option ℝ →
      List ℝ × List ℝ × List ℝ)
    (a : ULArgs) (st : DMState) : ℝ :=
  getLoss st (ulT getSwitch getAssign a st) (ulT_ getSwitch a st)
    a.alpha a.beta a.gamma a.scaling

/-- Lines 220-223: commit `t` and `t_`, recompute the state indicator as the
boolean `t <= t_` and the time-in-state as `tau = t*o + (t - t_)*(1 - o)`. -/
def setTime (st : DMState) (tl : List ℝ) (tw : ℝ) : DMState :=
  let oN := tl.map fun ti => if ti ≤ tw then (1 : ℝ) else 0
  { st with
    t := tl
    t_ := tw
    o := oN
    tau := List.zipWith (fun ti oi => ti * oi + (ti - tw) * (1 - oi)) tl oN }

/-- Lines 225-228: commit whichever scalar parameters were supplied. -/
def applyScalars (a : ULArgs) (st : DMState) : DMState :=
  { st with
    alpha := a.alpha.getD st.alpha
    beta := a.beta.getD st.beta
    gamma := a.gamma.getD st.gamma
    scaling := a.scaling.getD st.scaling }

/-- Lines 230-231: append the snapshot column
`[alpha, beta, gamma, t_, scaling]` (current, post-commit values) and the
loss value `v`. -/
def pushTrace (st : DMState) (v : ℝ) : DMState :=
  { st with
    pars := st.pars ++ [[st.alpha, st.beta, st.gamma, st.t_, st.scaling]],
    loss := st.loss ++ [v] }

/-- `DynamicsRecovery.update_loss` (lines 189-233).  Returns the new state
and `perform_update`.  Returns `none` exactly where the source raises: an
accepted update that enters the time branch with no `t` available (the
comparison `t <= t_` with `t = None` on line 222 is a `TypeError`). -/
def update_loss
    (getLoss : DMState → Option (List ℝ) → Option ℝ → Option ℝ → Option ℝ →
      Option ℝ → Option ℝ → ℝ)
    (getSwitch : DMState → Option ℝ → Option ℝ → Option ℝ → ℝ)
    (getAssign : DMState → ℝ → Option ℝ → Option ℝ → Option ℝ →
      List ℝ × List ℝ × List ℝ)
    (a : ULArgs) (st : DMState) : Option (DMState × Bool) :=
  let lossPrev := lossPrevOf st
  let loss := ulCandLoss getLoss getSwitch getAssign a st
  if a.clip_loss = false ∨ loss < lossPrev then
    if a.t_.isSome || a.reassign_time then
      match ulT getSwitch getAssign a st, ulT_ getSwitch a st with
      | some tl, some tw =>
          some (pushTrace (applyScalars a (setTime st tl tw)) loss, true)
      | _, _ => none
    else some (pushTrace (applyScalars a st) loss, true)
  else some (pushTrace st lossPrev, false)

/-- The `PerCellAssignment` invariant `t = tau*o + (tau + t_)*(1 - o)`,
stated per cell over the three parallel arrays. -/
def timeInv (t tau o : List ℝ) (t_ : ℝ) : Prop :=
  t.length = tau.length ∧ t.length = o.length ∧
  ∀ i (h1 : i < t.length) (h2 : i < tau.length) (h3 : i < o.length),
    t.get ⟨i, h1⟩ = tau.get ⟨i, h2⟩ * o.get ⟨i, h3⟩ +
      (tau.get ⟨i, h2⟩ + t_) * (1 - o.get ⟨i, h3⟩)

/-!
`DynamicsRecovery.fit` (`dynamical_model.py` lines 82-94): the outer
optimization loop.  Its sub-steps `update_vars`, `update_state_dependent` and
`shuffle_pars` mutate the optimizer state and (for the latter two) report an
improvement flag; the loop's control flow only consumes those flags and the
loss trace, so the sub-steps enter as the abstract functions of `FitFns` and
the theorems hold for all of them.
-/

/-- The sub-steps and loss-trace accessor the `fit` loop calls. -/
structure FitFns (σ : Type) where
  updateVars : σ → σ
  updateStateDependent : σ → σ × Bool
  shufflePars : σ → σ × Bool
  lossOf : σ → List ℝ

/-- Python's `l[-n:]`. -/
def lastN (n : ℕ) (l : List ℝ) : List ℝ := l.drop (l.length - n)

/-- Python's `l[-1]` (the modelled loop never consults it on an empty
trace, so the `0` default is never reached). -/
def npLast (l : List ℝ) : ℝ := (l.getLast?).getD 0

/-- Line 90-91 of `fit`: `loss_prev - loss < loss_prev * .001` with
`loss_prev = np.max(self.loss[-5:])` and `loss = self.loss[-1]`. -/
def fitStagnation (l : List ℝ) : Prop :=
  npMax (lastN 5 l) - npLast l < npMax (lastN 5 l) * 0.001

instance (l : List ℝ) : Decidable (fitStagnation l) := by
  unfold fitStagnation; infer_instance

/-- Lines 86-88 of iteration `i`: the gradient step `update_vars` followed by
the conditional closed-form sweep (`idxU` is `idx_update`). -/
def fitStage2 {σ : Type} (F : FitFns σ) (idxU maxIter i : ℕ) (st : σ)
    (improved : Bool) : σ × Bool :=
  let st1 := F.updateVars st
  if improved = true ∨ i % idxU = 1 ∨ i = maxIter - 1 then
    F.updateStateDependent st1
  else (st1, improved)

/-- The outcome of one `fit` iteration.  `broke` records whether line 94's
`break` fired and `shuffled` whether `shuffle_pars` was invoked; both are
control-flow instrumentation, not optimizer state. -/
structure FitIterResult (σ : Type) where
  state : σ
  improved : Bool
  broke : Bool
  shuffled : Bool

/-- Lines 86-94: one iteration of the `fit` loop. -/
def fitIter {σ : Type} (F : FitFns σ) (idxU maxIter i : ℕ) (st : σ)
    (improved : Bool) : FitIterResult σ :=
  let p := fitStage2 F idxU maxIter i st improved
  if 5 < i ∧ fitStagnation (F.lossOf p.1) then
    let q := F.shufflePars p.1
    ⟨q.1, q.2, !q.2, true⟩
  else ⟨p.1, p.2, false, false⟩

/-- The `for i in range(max_iter)` loop of lines 85-94, with the remaining
iteration budget as fuel. -/
def fitGo {σ : Type} (F : FitFns σ) (idxU maxIter : ℕ) :
    ℕ → ℕ → σ → Bool → σ
  | 0, _, st, _ => st
  | n + 1, i, st, improved =>
    let r := fitIter F idxU maxIter i st improved
    if r.broke then r.state
    else fitGo F idxU maxIter n (i + 1) r.state r.improved

/-- `DynamicsRecovery.fit(max_iter)` (lines 82-94):
`idx_update = np.clip(int(max_iter / 10), 1, None)` and `improved = True`
initially. -/
def fit {σ : Type} (F : FitFns σ) (maxIter : ℕ) (st : σ) : σ :=
  fitGo F (max (maxIter / 10) 1) maxIter maxIter 0 st true

/-- Loss trace used by the C7 instances: the maximum of the last five entries
is `1001000`, the latest is `1000000`. -/
def fitCexLoss : List ℝ := [1001000, 1000000, 1000000, 1000000, 1000000]

/-- A concrete `FitFns` over `σ = ℕ` whose loss trace is `fitCexLoss` and
whose `shufflePars` increments the state (making its invocation observable)
and reports no improvement. -/
def fitCexF : FitFns ℕ :=
  ⟨id, fun n => (n, false), fun n => (n + 1, false), fun _ => fitCexLoss⟩

/-!
`DynamicsRecovery.shuffle_pars` (`dynamical_model.py` lines 235-247): the
stagnation-escape grid search.  `self.get_loss(alpha=x, gamma=y,
reassign_time=True)` is not among the sources under analysis and enters as
the abstract function `getLossRT`.
-/

/-- `np.linspace(a, b, n)`. -/
def linspace (a b : ℝ) (n : ℕ) : List ℝ :=
  (List.range n).map fun i => a + (b - a) * (i : ℝ) / ((n : ℝ) - 1)

/-- Lines 236-237: `np.linspace(lo, hi, num) * v + v`. -/
def shuffleVals (v lo hi : ℝ) (n : ℕ) : List ℝ :=
  (linspace lo hi n).map fun x => x * v + v

/-- The loss grid `z` of lines 241-245, flattened row-major as `z.argmin`
sees it: entry `i * len(ys) + j` holds `f xs[i] ys[j]`. -/
def shuffleGrid (f : ℝ → ℝ → ℝ) (xs ys : List ℝ) : List ℝ :=
  xs.flatMap fun xi => ys.map fun yj => f xi yj

/-- Tail of the first-minimum search: `ci` is the index of the next element,
`(bi, bv)` the best index and value so far (strict `<`, so the first minimum
wins, as with `np.argmin`). -/
def idxminGo : ℕ → ℕ → ℝ → List ℝ → ℕ
  | _, bi, _, [] => bi
  | ci, bi, bv, v :: rest =>
    if v < bv then idxminGo (ci + 1) ci v rest
    else idxminGo (ci + 1) bi bv rest

/-- `np.argmin` over a flat list: the index of the first minimum. -/
def idxmin : List ℝ → ℕ
  | [] => 0
  | x :: xs => idxminGo 1 0 x xs

/-- Lines 235-247 of `shuffle_pars` up to the final `update_loss` call: the
grid search and the `(alpha, gamma)` candidate proposed for acceptance.
`ix, iy = np.unravel_index(z.argmin(), z.shape)` gives `ix = k / len(y)` and
`iy = k % len(y)`; line 247 then passes `x[ix]` and `y[ix]` — the computed
`iy` is never used. -/
def shuffleProposal (getLossRT : ℝ → ℝ → ℝ) (alpha gamma : ℝ) (n : ℕ) :
    ℝ × ℝ :=
  let x := shuffleVals alpha (-0.5) 0.5 n
  let y := shuffleVals gamma (-0.5) 0.5 n
  let z := shuffleGrid getLossRT x y
  let k := idxmin z
  let ix := k / y.length
  ((x.get? ix).getD alpha, (y.get? ix).getD gamma)

/-!
`recover_dynamics` (`dynamical_model.py` lines 305-306): the cross-gene
rescaling applied after all genes have been fitted.
-/

/-- Lines 305-306: `m = t_max / T.max(0) if t_max is not None else ones` and
`alpha, beta, gamma, T, t_ = alpha / m, beta / m, gamma / m, T * m, t_ * m`
(`scaling` is not touched).  `T` is stored gene-major here: `T[g]` is the
per-cell fitted-time column of gene `g` of the source's cells-by-genes
matrix, so `T.max(0)` is `npMax` of each column.  Output order:
`(alpha, beta, gamma, t_, scaling, T)`. -/
def recover_rescale (t_max : Option ℝ) (alpha beta gamma t_ scaling : List ℝ)
    (T : List (List ℝ)) :
    List ℝ × List ℝ × List ℝ × List ℝ × List ℝ × List (List ℝ) :=
  let m : List ℝ := match t_max with
    | some tm => T.map fun col => tm / npMax col
    | none => List.replicate T.length 1
  (List.zipWith (· / ·) alpha m, List.zipWith (· / ·) beta m,
    List.zipWith (· / ·) gamma m, List.zipWith (· * ·) t_ m, scaling,
    List.zipWith (fun col mg => col.map (· * mg)) T m)

/-!
IEEE-style extended values, used to model the one place where the source's
behaviour depends on the float special values: `inv(x) = 1 / x * (x != 0)`
evaluated at `x = 0` (numpy computes `1 / 0 = inf` with the warning
suppressed, and then `inf * 0 = nan`).  Signed zero is not modelled (it is
irrelevant here).
-/

/-- An IEEE-754-style value: a finite real, one of the two infinities, or nan. -/
inductive FloatVal where
  | num : ℝ → FloatVal
  | posInf : FloatVal
  | negInf : FloatVal
  | nan : FloatVal

/-- IEEE division on `FloatVal` (finite arithmetic exact, no signed zero). -/
def fdiv : FloatVal → FloatVal → FloatVal
  | .num a, .num b =>
      if b = 0 then (if a = 0 then .nan else if 0 < a then .posInf else .negInf)
      else .num (a / b)
  | .num _, .posInf => .num 0
  | .num _, .negInf => .num 0
  | .posInf, .num b => if 0 ≤ b then .posInf else .negInf
  | .negInf, .num b => if 0 ≤ b then .negInf else .posInf
  | .posInf, .posInf => .nan
  | .posInf, .negInf => .nan
  | .negInf, .posInf => .nan
  | .negInf, .negInf => .nan
  | _, _ => .nan

/-- IEEE multiplication on `FloatVal`: in particular `±inf * 0 = nan`. -/
def fmul : FloatVal → FloatVal → FloatVal
  | .num a, .num b => .num (a * b)
  | .num a, .posInf => if a = 0 then .nan else if 0 < a then .posInf else .negInf
  | .posInf, .num b => if b = 0 then .nan else if 0 < b then .posInf else .negInf
  | .num a, .negInf => if a = 0 then .nan else if 0 < a then .negInf else .posInf
  | .negInf, .num b => if b = 0 then .nan else if 0 < b then .negInf else .posInf
  | .posInf, .posInf => .posInf
  | .posInf, .negInf => .negInf
  | .negInf, .posInf => .negInf
  | .negInf, .negInf => .posInf
  | _, _ => .nan

/-- The numpy comparison `x != 0` (true for `inf` and for `nan`), converted to
the float `1.0` or `0.0` as numpy does when multiplying by a boolean. -/
def fneZero : FloatVal → Bool
  | .num a => if a = 0 then false else true
  | _ => true

/-- `inv(x) = 1 / x * (x != 0)` from `dynamical_model_utils.py`, evaluated in
IEEE arithmetic (the `with warnings.catch_warnings()` block only silences the
divide-by-zero and invalid-value warnings; it does not change the values). -/
def finv (x : FloatVal) : FloatVal :=
  fmul (fdiv (.num 1) x) (.num (if fneZero x then 1 else 0))

end

/-- C1: for `beta > 0` with `u0 ≠ alpha / beta` (so that the ratio inside
`tau_u` is well defined) and `tau` strictly inside the domain where the ratio
`exp(-beta * tau)` stays within `(1e-6, 1 - 1e-6)`, composing `unspliced`
with `tau_u` on the same parameters recovers `tau` exactly. -/
theorem tau_u_unspliced_roundtrip (tau u0 alpha beta : ℝ) (hb : 0 < beta)
    (hu : u0 ≠ alpha / beta)
    (h1 : (1e-6 : ℝ) < Real.exp (-beta * tau))
    (h2 : Real.exp (-beta * tau) < 1 - 1e-6) :
    tau_u (unspliced tau u0 alpha beta) u0 alpha beta = tau := by
  have hden : u0 - alpha / beta ≠ 0 := sub_ne_zero.mpr hu
  have hnum : unspliced tau u0 alpha beta - alpha / beta
      = (u0 - alpha / beta) * Real.exp (-beta * tau) := by
    simp only [unspliced]; ring
  have hratio : (unspliced tau u0 alpha beta - alpha / beta) / (u0 - alpha / beta)
      = Real.exp (-beta * tau) := by
    rw [hnum, mul_div_cancel_left₀ _ hden]
  simp only [tau_u, log, clip]
  rw [hratio, max_eq_left h1.le, min_eq_right h2.le, Real.log_exp]
  field_simp

/-- Witness for C1 at `tau = 1, u0 = 1, alpha = 0, beta = 1`. -/
theorem tau_u_unspliced_roundtrip_w :
    tau_u (unspliced 1 1 0 1) 1 0 1 = 1 := by
  have hgt : (2.7182818283 : ℝ) < Real.exp 1 := Real.exp_one_gt_d9
  have hlt : Real.exp 1 < 2.7182818286 := Real.exp_one_lt_d9
  have h0 : (0 : ℝ) < Real.exp 1 := Real.exp_pos 1
  have hexp : Real.exp (-(1 : ℝ) * 1) = (Real.exp 1)⁻¹ := by
    norm_num [Real.exp_neg]
  refine tau_u_unspliced_roundtrip 1 1 0 1 (by norm_num) (by norm_num) ?_ ?_
  · rw [hexp]
    have h2 : (2.7182818286 : ℝ)⁻¹ < (Real.exp 1)⁻¹ :=
      inv_strictAnti₀ h0 hlt
    calc (1e-6 : ℝ) < (2.7182818286 : ℝ)⁻¹ := by norm_num
      _ < (Real.exp 1)⁻¹ := h2
  · rw [hexp]
    have h2 : (Real.exp 1)⁻¹ < (2.7182818283 : ℝ)⁻¹ :=
      inv_strictAnti₀ (by norm_num) hgt
    calc (Real.exp 1)⁻¹ < (2.7182818283 : ℝ)⁻¹ := h2
      _ < 1 - 1e-6 := by norm_num

/-- C5: evaluating `inv` at the failing input `x = 0` under IEEE float
arithmetic: `1 / 0 = inf` and `inf * 0 = nan`, so `inv(0)` is `nan` — not `0`
as the claim states (the `* (x != 0)` mask is evidently intended to force the
result `0` there, so the code, not the claim, is at fault).  For every nonzero
finite `x` the function does return `1 / x`, both in the IEEE model and in
the real-number transcription `inv`. -/
theorem inv_zero_is_nan :
    finv (FloatVal.num 0) = FloatVal.nan ∧
    (∀ x : ℝ, x ≠ 0 → finv (FloatVal.num x) = FloatVal.num (1 / x)) ∧
    (∀ x : ℝ, x ≠ 0 → inv x = 1 / x) := by
  refine ⟨?_, ?_, ?_⟩
  · simp [finv, fdiv, fmul, fneZero]
  · intro x hx
    simp [finv, fdiv, fmul, fneZero, hx]
  · intro x hx
    simp [inv, hx]

/-- Witness for C5 (second and third conjuncts) at `x = 2`. -/
theorem inv_zero_is_nan_w :
    finv (FloatVal.num 2) = FloatVal.num (1 / 2) ∧ inv 2 = 1 / 2 :=
  ⟨inv_zero_is_nan.2.1 2 (by norm_num), inv_zero_is_nan.2.2 2 (by norm_num)⟩

/-- C2: after `assign_timepoints` returns, every cell's output triple is
`atCell` of that cell, and the reconstructed model point on the branch
selected by `o`, evaluated at the assigned time-in-state `tau`, is at most as
far (Euclidean distance) from the observed `(u, s)` as the candidate point on
the rejected branch: `o` is the arg-min of the two per-cell distances (ties
go to the repression branch `o = 0`). -/
theorem assign_timepoints_argmin (u s : List ℝ) (alpha beta gamma : ℝ)
    (t0O u0O s0O : Option ℝ) (t0_ u0_ s0_ M : ℝ) (out : List (ℝ × ℝ × ℝ))
    (hres : atResolve u s alpha beta gamma t0O u0O s0O = some (t0_, u0_, s0_, M))
    (hout : assign_timepoints u s alpha beta gamma t0O u0O s0O = some out) :
    out = (u.zip s).map (fun q => atCell alpha beta gamma t0_ u0_ s0_ M q.1 q.2) ∧
    ∀ q ∈ u.zip s,
      dist2 (reconPoint alpha beta gamma u0_ s0_
          (atCell alpha beta gamma t0_ u0_ s0_ M q.1 q.2).2.2
          (atCell alpha beta gamma t0_ u0_ s0_ M q.1 q.2).2.1) q ≤
      dist2 (reconPoint alpha beta gamma u0_ s0_
          (1 - (atCell alpha beta gamma t0_ u0_ s0_ M q.1 q.2).2.2)
          (rejTau alpha beta gamma t0_ u0_ s0_ M q.1 q.2)) q := by
  constructor
  · rw [assign_timepoints, hres] at hout
    exact (Option.some_injective _ hout).symm
  · rintro ⟨uq, sq⟩ _
    by_cases h : dist2 (onPoint alpha beta gamma (cellTauOn alpha beta gamma t0_ uq sq)) (uq, sq) <
        dist2 (offPoint beta gamma u0_ s0_ (cellTauOff beta gamma u0_ s0_ M uq sq)) (uq, sq)
    · simp only [atCell, rejTau, if_pos h, reconPoint]
      norm_num
      exact h.le
    · simp only [atCell, rejTau, if_neg h, reconPoint]
      norm_num
      exact not_lt.mp h

/-- Witness for C2 at `u = [1], s = [1]`, `alpha = 2, beta = 1, gamma = 3`,
`t0_ = 2` given, `u0_ = s0_ = 1` given. -/
theorem assign_timepoints_argmin_w :
    dist2 (reconPoint 2 1 3 1 1
        (atCell 2 1 3 2 1 1 (tau_inv 1 1 1 1 0 1 3) 1 1).2.2
        (atCell 2 1 3 2 1 1 (tau_inv 1 1 1 1 0 1 3) 1 1).2.1) (1, 1) ≤
      dist2 (reconPoint 2 1 3 1 1
        (1 - (atCell 2 1 3 2 1 1 (tau_inv 1 1 1 1 0 1 3) 1 1).2.2)
        (rejTau 2 1 3 2 1 1 (tau_inv 1 1 1 1 0 1 3) 1 1)) (1, 1) := by
  have hres : atResolve [1] [1] 2 1 3 (some 2) (some 1) (some 1)
      = some (2, 1, 1, tau_inv 1 1 1 1 0 1 3) := by
    simp [atResolve, atSwitch, atInit, npMax]
  have hout : assign_timepoints [1] [1] 2 1 3 (some 2) (some 1) (some 1)
      = some [atCell 2 1 3 2 1 1 (tau_inv 1 1 1 1 0 1 3) 1 1] := by
    rw [assign_timepoints, hres]
    simp
  exact (assign_timepoints_argmin [1] [1] 2 1 3 (some 2) (some 1) (some 1)
      2 1 1 (tau_inv 1 1 1 1 0 1 3) _ hres hout).2 (1, 1) (by simp)

/-- The `tau_s` loop runs at most `fuel` iterations. -/
theorem tauSGo_iters_le (u0 s0 beta gamma eps : ℝ) (mixed : Bool)
    (alpha s : List ℝ) :
    ∀ (fuel : ℕ) (tauPrev tau : List ℝ) (loss : ℝ),
      (tauSGo u0 s0 beta gamma eps mixed alpha s fuel tauPrev tau loss).2 ≤ fuel := by
  intro fuel
  induction fuel with
  | zero => intro tauPrev tau loss; rw [tauSGo]
  | succ fuel ih =>
    intro tauPrev tau loss
    rw [tauSGo]
    split
    · exact Nat.succ_le_succ (ih _ _ _)
    · exact Nat.zero_le _

/-- C8: the iterative inverse-time solver `tau_s` is a total function (it
never raises): every entry of its result is clipped to be non-negative, its
loop performs at most 10 iterations (the hard cap `max_iter = 10`), and when
no entry has a real root (no positive discriminant) one pass shrinks the
whole time estimate to a tenth of its previous value and the loop continues. -/
theorem tau_s_total_capped_clipped (s : List ℝ) (s0 u0 : ℝ) (alpha : List ℝ)
    (beta gamma : ℝ) (uO tauO : Option (List ℝ)) (eps : ℝ) :
    (∀ x ∈ tau_s s s0 u0 alpha beta gamma uO tauO eps, 0 ≤ x) ∧
    tauSIters s s0 u0 alpha beta gamma uO tauO eps ≤ 10 ∧
    (∀ (mixed : Bool) (tau : List ℝ), ¬ tauSAnyPos u0 s0 beta gamma alpha s tau →
      tauSStep u0 s0 beta gamma mixed alpha s tau = tau.map fun x => x / 10) := by
  refine ⟨?_, ?_, ?_⟩
  · intro x hx
    simp only [tau_s, List.mem_map] at hx
    obtain ⟨y, _, rfl⟩ := hx
    exact le_max_right y 0
  · exact tauSGo_iters_le u0 s0 beta gamma eps _ alpha s 10 _ _ _
  · intro mixed tau h
    rw [tauSStep, if_neg h]

/-- Witness for C8 at `alpha = [1], s = [-3], tau = [0]`, `u0 = s0 = 0`,
`beta = 2`, `gamma = 1`: the only discriminant is `-12 < 0`, so the step
divides the estimate by 10. -/
theorem tau_s_total_capped_clipped_w :
    ¬ tauSAnyPos 0 0 2 1 [1] [-3] [0] ∧
    tauSStep 0 0 2 1 false [1] [-3] [0] = [(0 : ℝ)].map fun x => x / 10 := by
  have hneg : ¬ tauSAnyPos 0 0 2 1 [1] [-3] [0] := by
    norm_num [tauSAnyPos, tauSEntries, tauSTerm, tauSabc, tauSb0, tauSg0, inv,
      Real.exp_zero]
  exact ⟨hneg,
    (tau_s_total_capped_clipped [-3] 0 0 [1] 2 1 none none 1e-2).2.2 false [0] hneg⟩

/-- C4: every `update_loss` call that returns appends exactly one loss value
and exactly one snapshot column `[alpha, beta, gamma, t_, scaling]` (the
post-call parameter values), whether or not the proposal is accepted; a
rejected proposal appends the prior loss value; and with `clip_loss` enabled
the appended loss value is at most the previous last stored value (so the
trace is monotone non-increasing). -/
theorem update_loss_trace
    (getLoss : DMState → Option (List ℝ) → Option ℝ → Option ℝ → Option ℝ →
      Option ℝ → Option ℝ → ℝ)
    (getSwitch : DMState → Option ℝ → Option ℝ → Option ℝ → ℝ)
    (getAssign : DMState → ℝ → Option ℝ → Option ℝ → Option ℝ →
      List ℝ × List ℝ × List ℝ)
    (a : ULArgs) (st st' : DMState) (b : Bool)
    (h : update_loss getLoss getSwitch getAssign a st = some (st', b)) :
    st'.pars.length = st.pars.length + 1 ∧
    st'.loss.length = st.loss.length + 1 ∧
    st'.pars = st.pars ++ [[st'.alpha, st'.beta, st'.gamma, st'.t_, st'.scaling]] ∧
    (b = false → st'.loss = st.loss ++ [lossPrevOf st]) ∧
    (a.clip_loss = true → ∃ v, st'.loss = st.loss ++ [v] ∧ v ≤ lossPrevOf st) := by
  simp only [update_loss] at h
  split at h
  · rename_i hperf
    split at h
    · split at h
      · simp only [Option.some.injEq, Prod.mk.injEq] at h
        obtain ⟨h1, h2⟩ := h
        subst h1; subst h2
        refine ⟨by simp [pushTrace, applyScalars, setTime],
          by simp [pushTrace, applyScalars, setTime], ?_, by simp, ?_⟩
        · simp [pushTrace, applyScalars, setTime]
        · intro hc
          refine ⟨ulCandLoss getLoss getSwitch getAssign a st, ?_, ?_⟩
          · simp [pushTrace, applyScalars, setTime]
          · exact le_of_lt (hperf.resolve_left (by simp [hc]))
      · exact absurd h (by simp)
    · simp only [Option.some.injEq, Prod.mk.injEq] at h
      obtain ⟨h1, h2⟩ := h
      subst h1; subst h2
      refine ⟨by simp [pushTrace, applyScalars],
        by simp [pushTrace, applyScalars], ?_, by simp, ?_⟩
      · simp [pushTrace, applyScalars]
      · intro hc
        refine ⟨ulCandLoss getLoss getSwitch getAssign a st, ?_, ?_⟩
        · simp [pushTrace, applyScalars]
        · exact le_of_lt (hperf.resolve_left (by simp [hc]))
  · simp only [Option.some.injEq, Prod.mk.injEq] at h
    obtain ⟨h1, h2⟩ := h
    subst h1; subst h2
    refine ⟨by simp [pushTrace], by simp [pushTrace], ?_, by simp [pushTrace], ?_⟩
    · simp [pushTrace]
    · intro _
      exact ⟨lossPrevOf st, by simp [pushTrace], le_refl _⟩

/-- Witness for C4: a rejected call (`getLoss` constantly `7`, prior trace
`[5]`, `clip_loss` on, all arguments `None`) appends the prior loss `5` and
one snapshot column. -/
theorem update_loss_trace_w :
    ∃ st' b, update_loss (fun _ _ _ _ _ _ _ => 7) (fun _ _ _ _ => 0)
        (fun _ _ _ _ _ => ([], [], []))
        ⟨none, none, none, none, none, none, false, true⟩
        ⟨[], [], [], 0, 1, 1, 1, 1, [], [5]⟩ = some (st', b) ∧
      st'.pars.length = 1 ∧ st'.loss.length = 2 := by
  have h : update_loss (fun _ _ _ _ _ _ _ => 7) (fun _ _ _ _ => 0)
      (fun _ _ _ _ _ => ([], [], []))
      ⟨none, none, none, none, none, none, false, true⟩
      ⟨[], [], [], 0, 1, 1, 1, 1, [], [5]⟩
      = some (pushTrace ⟨[], [], [], 0, 1, 1, 1, 1, [], [5]⟩
          (lossPrevOf ⟨[], [], [], 0, 1, 1, 1, 1, [], [5]⟩), false) := by
    rw [update_loss]
    rw [if_neg]
    simp only [ulCandLoss, lossPrevOf]
    norm_num
  refine ⟨_, _, h, ?_, ?_⟩
  · exact (update_loss_trace _ _ _ _ _ _ _ h).1
  · exact (update_loss_trace _ _ _ _ _ _ _ h).2.1

/-- C10: whenever `update_loss` rejects a proposal (returns `False`), the fit
state is unchanged — `alpha`, `beta`, `gamma`, `scaling`, `t_` and the
per-cell arrays `t`, `tau`, `o` keep their previous values — and only the
loss trace and the snapshot matrix grow; moreover, with `clip_loss` enabled,
rejection happens exactly when the candidate loss is not strictly below the
last stored loss. -/
theorem update_loss_reject
    (getLoss : DMState → Option (List ℝ) → Option ℝ → Option ℝ → Option ℝ →
      Option ℝ → Option ℝ → ℝ)
    (getSwitch : DMState → Option ℝ → Option ℝ → Option ℝ → ℝ)
    (getAssign : DMState → ℝ → Option ℝ → Option ℝ → Option ℝ →
      List ℝ × List ℝ × List ℝ)
    (a : ULArgs) (st : DMState) :
    (∀ st', update_loss getLoss getSwitch getAssign a st = some (st', false) →
      st'.alpha = st.alpha ∧ st'.beta = st.beta ∧ st'.gamma = st.gamma ∧
      st'.scaling = st.scaling ∧ st'.t_ = st.t_ ∧ st'.t = st.t ∧
      st'.tau = st.tau ∧ st'.o = st.o ∧
      st'.loss = st.loss ++ [lossPrevOf st] ∧
      st'.pars = st.pars ++ [[st.alpha, st.beta, st.gamma, st.t_, st.scaling]]) ∧
    (a.clip_loss = true →
      (update_loss getLoss getSwitch getAssign a st
          = some (pushTrace st (lossPrevOf st), false) ↔
        ¬ ulCandLoss getLoss getSwitch getAssign a st < lossPrevOf st)) := by
  constructor
  · intro st' h
    simp only [update_loss] at h
    split at h
    · split at h
      · split at h
        · simp only [Option.some.injEq, Prod.mk.injEq] at h
          exact absurd h.2 (by simp)
        · exact absurd h (by simp)
      · simp only [Option.some.injEq, Prod.mk.injEq] at h
        exact absurd h.2 (by simp)
    · simp only [Option.some.injEq, Prod.mk.injEq] at h
      obtain ⟨h1, -⟩ := h
      subst h1
      simp [pushTrace]
  · intro hc
    constructor
    · intro h
      intro hlt
      simp only [update_loss, if_pos (Or.inr hlt)] at h
      split at h
      · split at h
        · simp only [Option.some.injEq, Prod.mk.injEq] at h
          exact absurd h.2 (by simp)
        · exact absurd h (by simp)
      · simp only [Option.some.injEq, Prod.mk.injEq] at h
        exact absurd h.2 (by simp)
    · intro hnlt
      rw [update_loss, if_neg]
      intro hor
      rcases hor with hl | hr
      · rw [hc] at hl; exact absurd hl (by simp)
      · exact hnlt hr

/-- Witness for C10: the rejected call of the C4 witness (candidate loss `7`
against stored loss `5`) leaves `alpha` unchanged, and the iff instantiates
with `¬(7 < 5)`. -/
theorem update_loss_reject_w :
    update_loss (fun _ _ _ _ _ _ _ => 7) (fun _ _ _ _ => 0)
        (fun _ _ _ _ _ => ([], [], []))
        ⟨none, none, none, none, none, none, false, true⟩
        ⟨[], [], [], 0, 1, 1, 1, 1, [], [5]⟩
      = some (pushTrace ⟨[], [], [], 0, 1, 1, 1, 1, [], [5]⟩
          (lossPrevOf ⟨[], [], [], 0, 1, 1, 1, 1, [], [5]⟩), false) := by
  refine ((update_loss_reject (fun _ _ _ _ _ _ _ => 7) (fun _ _ _ _ => 0)
      (fun _ _ _ _ _ => ([], [], []))
      ⟨none, none, none, none, none, none, false, true⟩
      ⟨[], [], [], 0, 1, 1, 1, 1, [], [5]⟩).2 rfl).mpr ?_
  simp only [ulCandLoss, lossPrevOf]
  norm_num

/-- C3: `update_loss` preserves the per-cell invariant
`t = tau*o + (tau + t_)*(1 - o)`: if the state satisfies it before an
accepted update, the state satisfies it afterwards (a time-committing update
re-establishes it outright from the recomputed `o` and `tau`; any other
accepted update leaves the four time fields untouched). -/
theorem update_loss_time_invariant
    (getLoss : DMState → Option (List ℝ) → Option ℝ → Option ℝ → Option ℝ →
      Option ℝ → Option ℝ → ℝ)
    (getSwitch : DMState → Option ℝ → Option ℝ → Option ℝ → ℝ)
    (getAssign : DMState → ℝ → Option ℝ → Option ℝ → Option ℝ →
      List ℝ × List ℝ × List ℝ)
    (a : ULArgs) (st st' : DMState)
    (hInv : timeInv st.t st.tau st.o st.t_)
    (h : update_loss getLoss getSwitch getAssign a st = some (st', true)) :
    timeInv st'.t st'.tau st'.o st'.t_ := by
  simp only [update_loss] at h
  split at h
  · split at h
    · split at h
      · rename_i xa xb tl tw heqT heqTw
        simp only [Option.some.injEq, Prod.mk.injEq] at h
        obtain ⟨h1, -⟩ := h
        subst h1
        simp only [pushTrace, applyScalars, setTime]
        refine ⟨by simp, by simp, ?_⟩
        intro i h1 h2 h3
        simp only [List.get_eq_getElem, List.getElem_zipWith, List.getElem_map]
        by_cases hle : tl[i] ≤ tw
        · simp only [if_pos hle]; ring
        · simp only [if_neg hle]; ring
      · exact absurd h (by simp)
    · simp only [Option.some.injEq, Prod.mk.injEq] at h
      obtain ⟨h1, -⟩ := h
      subst h1
      simpa [pushTrace, applyScalars] using hInv
  · simp only [Option.some.injEq, Prod.mk.injEq] at h
    exact absurd h.2 (by simp)

/-- Witness for C3: an accepted update (candidate loss `0` against stored
loss `5`) that passes `t_ = 3` and `t = [2]`, starting from a state
satisfying the invariant; the resulting state satisfies it as well. -/
theorem update_loss_time_invariant_w :
    timeInv [(2 : ℝ)] [(2 : ℝ)] [(1 : ℝ)] 3 ∧
    ∃ st', update_loss (fun _ _ _ _ _ _ _ => 0) (fun _ _ _ _ => 0)
        (fun _ _ _ _ _ => ([], [], []))
        ⟨some [2], some 3, none, none, none, none, false, true⟩
        ⟨[2], [2], [1], 3, 1, 1, 1, 1, [], [5]⟩ = some (st', true) ∧
      timeInv st'.t st'.tau st'.o st'.t_ := by
  have hInv : timeInv [(2 : ℝ)] [(2 : ℝ)] [(1 : ℝ)] 3 := by
    refine ⟨rfl, rfl, ?_⟩
    intro i h1 h2 h3
    have hi : i = 0 := by simpa [Nat.lt_one_iff] using h1
    subst hi
    norm_num
  have h : update_loss (fun _ _ _ _ _ _ _ => 0) (fun _ _ _ _ => 0)
      (fun _ _ _ _ _ => ([], [], []))
      ⟨some [2], some 3, none, none, none, none, false, true⟩
      ⟨[2], [2], [1], 3, 1, 1, 1, 1, [], [5]⟩
      = some (pushTrace (applyScalars
          ⟨some [2], some 3, none, none, none, none, false, true⟩
          (setTime ⟨[2], [2], [1], 3, 1, 1, 1, 1, [], [5]⟩ [2] 3)) 0, true) := by
    rw [update_loss]
    rw [if_pos]
    · simp [ulT, ulT_, ulCandLoss]
    · right
      simp only [ulCandLoss, lossPrevOf]
      norm_num
  exact ⟨hInv, _, h,
    update_loss_time_invariant _ _ _ _ _ _ hInv h⟩

/-- C7 counterexample: at iteration `i = 6` with the loss trace
`[1001000, 1000000, 1000000, 1000000, 1000000]`, the code invokes the escape
(`max - latest = 1000 < 0.001 * max = 1001`, observable here as
`shuffled = true`), although the improvement is not below 0.1% of the
current (latest) loss (`1000 ≥ 0.001 * 1000000 = 1000`) — so the trigger
threshold is 0.1% of the 5-step maximum, not of the current loss as the
claim states. -/
theorem fit_trigger_cex :
    (fitIter fitCexF 1 100 6 (0 : ℕ) false).shuffled = true ∧
    ¬ (npMax (lastN 5 fitCexLoss) - npLast fitCexLoss <
        npLast fitCexLoss * 0.001) := by
  constructor
  · norm_num [fitIter, fitStage2, fitCexF, fitStagnation, fitCexLoss, lastN,
      npLast, npMax, max_def]
  · norm_num [fitCexLoss, lastN, npLast, npMax, max_def]

/-- C7 (amended): in the `fit` loop, the stagnation escape is invoked exactly
when `i > 5` and the maximum loss over the last 5 trace entries exceeds the
latest entry by less than 0.1% of that maximum (`loss_prev * .001` with
`loss_prev = np.max(loss[-5:])`); and whenever the invoked escape reports no
improvement, the loop breaks at once, returning that iteration's state with
the remaining iteration budget unused. -/
theorem fit_trigger_exact {σ : Type} (F : FitFns σ) (idxU maxIter i : ℕ)
    (st : σ) (improved : Bool) :
    ((fitIter F idxU maxIter i st improved).shuffled = true ↔
      (5 < i ∧
        fitStagnation (F.lossOf (fitStage2 F idxU maxIter i st improved).1))) ∧
    ((fitIter F idxU maxIter i st improved).broke = true ↔
      ((fitIter F idxU maxIter i st improved).shuffled = true ∧
        (F.shufflePars (fitStage2 F idxU maxIter i st improved).1).2 = false)) ∧
    (∀ n, (fitIter F idxU maxIter i st improved).broke = true →
      fitGo F idxU maxIter (n + 1) i st improved
        = (fitIter F idxU maxIter i st improved).state) := by
  refine ⟨?_, ?_, ?_⟩
  · by_cases h : 5 < i ∧
        fitStagnation (F.lossOf (fitStage2 F idxU maxIter i st improved).1)
    · simp [fitIter, h]
    · simp [fitIter, h]
  · by_cases h : 5 < i ∧
        fitStagnation (F.lossOf (fitStage2 F idxU maxIter i st improved).1)
    · simp [fitIter, h]
    · simp [fitIter, h]
  · intro n hbroke
    simp [fitGo, hbroke]

/-- Witness for C7's amended theorem at the concrete instance `fitCexF`,
`i = 6`: the trigger iff applies and yields `shuffled = true`. -/
theorem fit_trigger_exact_w :
    (fitIter fitCexF 1 100 6 (0 : ℕ) false).shuffled = true :=
  (fit_trigger_exact fitCexF 1 100 6 0 false).1.mpr
    ⟨by norm_num,
      by norm_num [fitCexF, fitStage2, fitStagnation, fitCexLoss, lastN,
        npLast, npMax, max_def]⟩

/-- C6: evaluation of `shuffle_pars` at a failing input.  With
`alpha = gamma = 1` the 5x5 grid has `alpha_vals = gamma_vals =
[0.5, 0.75, 1, 1.25, 1.5]`; for the loss landscape
`L(a, g) = (a - 0.5)^2 + (g - 0.75)^2` the grid minimum sits at
`(ix, iy) = (0, 1)`, i.e. `(0.5, 0.75)`, but line 247 proposes
`(x[ix], y[ix]) = (0.5, 0.5)` — `iy` is computed and never used — which is
strictly worse than the grid point `(0.5, 0.75)` whose `gamma` value `0.75`
is on the grid: the proposal is not the arg-min of the grid, contrary to the
claim. -/
theorem shuffle_pars_not_argmin :
    shuffleProposal (fun a g => (a - 0.5) ^ 2 + (g - 0.75) ^ 2) 1 1 5
        = (0.5, 0.5) ∧
    (0.75 : ℝ) ∈ shuffleVals 1 (-0.5) 0.5 5 ∧
    ((0.5 : ℝ) - 0.5) ^ 2 + ((0.75 : ℝ) - 0.75) ^ 2 <
      ((0.5 : ℝ) - 0.5) ^ 2 + ((0.5 : ℝ) - 0.75) ^ 2 := by
  have hr : List.range 5 = [0, 1, 2, 3, 4] := rfl
  have hvals : shuffleVals 1 (-0.5) 0.5 5 = [0.5, 0.75, 1, 1.25, 1.5] := by
    rw [shuffleVals, linspace, hr]
    norm_num
  refine ⟨?_, ?_, by norm_num⟩
  · rw [shuffleProposal]
    rw [hvals]
    norm_num [shuffleGrid, idxmin, idxminGo]
  · rw [hvals]
    norm_num

/-- `List.get?` of `zipWith` when both lists have an entry at `n`. -/
theorem get?_zipWith_some {α β γ' : Type} (f : α → β → γ') :
    ∀ (l1 : List α) (l2 : List β) (n : ℕ) (x : α) (y : β),
      l1.get? n = some x → l2.get? n = some y →
      (List.zipWith f l1 l2).get? n = some (f x y) := by
  intro l1
  induction l1 with
  | nil => intro l2 n x y h1 _; simp at h1
  | cons a l1 ih =>
    intro l2 n x y h1 h2
    cases l2 with
    | nil => simp at h2
    | cons b l2 =>
      cases n with
      | zero =>
        simp only [List.get?_cons_zero, Option.some.injEq] at h1 h2
        subst h1; subst h2
        simp
      | succ n =>
        simp only [List.get?_cons_succ] at h1 h2 ⊢
        rw [List.zipWith_cons_cons]
        simpa using ih l2 n x y h1 h2

/-- C9: the per-gene rescaling of `recover_dynamics` with `t_max` configured.
For gene `g` with fitted-time column `col`, the factor is
`m = t_max / max(col)`; `alpha`, `beta`, `gamma` are divided by `m`, `t_` and
every per-cell time are multiplied by `m`, and `scaling` is unchanged.  In
particular `t_max = 20` with maximum fitted time `10` gives `m = 2`: the
rates are exactly halved and all times exactly doubled. -/
theorem recover_rescale_spec (tm : ℝ) (alpha beta gamma t_ scaling : List ℝ)
    (T : List (List ℝ)) (g : ℕ) (a b c d : ℝ) (col : List ℝ)
    (ha : alpha.get? g = some a) (hb : beta.get? g = some b)
    (hc : gamma.get? g = some c) (hd : t_.get? g = some d)
    (hT : T.get? g = some col) :
    (recover_rescale (some tm) alpha beta gamma t_ scaling T).1.get? g
        = some (a / (tm / npMax col)) ∧
    (recover_rescale (some tm) alpha beta gamma t_ scaling T).2.1.get? g
        = some (b / (tm / npMax col)) ∧
    (recover_rescale (some tm) alpha beta gamma t_ scaling T).2.2.1.get? g
        = some (c / (tm / npMax col)) ∧
    (recover_rescale (some tm) alpha beta gamma t_ scaling T).2.2.2.1.get? g
        = some (d * (tm / npMax col)) ∧
    (recover_rescale (some tm) alpha beta gamma t_ scaling T).2.2.2.2.1
        = scaling ∧
    (recover_rescale (some tm) alpha beta gamma t_ scaling T).2.2.2.2.2.get? g
        = some (col.map (· * (tm / npMax col))) ∧
    (tm = 20 → npMax col = 10 →
      (recover_rescale (some tm) alpha beta gamma t_ scaling T).1.get? g
          = some (a / 2) ∧
      (recover_rescale (some tm) alpha beta gamma t_ scaling T).2.1.get? g
          = some (b / 2) ∧
      (recover_rescale (some tm) alpha beta gamma t_ scaling T).2.2.1.get? g
          = some (c / 2) ∧
      (recover_rescale (some tm) alpha beta gamma t_ scaling T).2.2.2.1.get? g
          = some (d * 2) ∧
      (recover_rescale (some tm) alpha beta gamma t_ scaling T).2.2.2.2.2.get? g
          = some (col.map (· * 2))) := by
  have hm : (T.map fun col2 => tm / npMax col2).get? g = some (tm / npMax col) := by
    rw [List.get?_map, hT]; rfl
  have h1 := get?_zipWith_some (· / ·) alpha _ g a _ ha hm
  have h2 := get?_zipWith_some (· / ·) beta _ g b _ hb hm
  have h3 := get?_zipWith_some (· / ·) gamma _ g c _ hc hm
  have h4 := get?_zipWith_some (· * ·) t_ _ g d _ hd hm
  have h6 := get?_zipWith_some (fun col2 mg => col2.map (· * mg)) T _ g col _ hT hm
  refine ⟨h1, h2, h3, h4, rfl, h6, ?_⟩
  intro h20 h10
  subst h20
  have hfac : (20 : ℝ) / npMax col = 2 := by rw [h10]; norm_num
  rw [hfac] at h1 h2 h3 h4 h6
  exact ⟨h1, h2, h3, h4, h6⟩

/-- Witness for C9 at a single gene with `alpha = 4`, `beta = 6`,
`gamma = 8`, `t_ = 3`, `scaling = 9`, fitted times `[10, 5]` and
`t_max = 20`. -/
theorem recover_rescale_spec_w :
    (recover_rescale (some 20) [4] [6] [8] [3] [9] [[10, 5]]).1.get? 0
        = some (4 / (20 / npMax [10, 5])) ∧
    (recover_rescale (some 20) [4] [6] [8] [3] [9] [[10, 5]]).2.2.2.2.1
        = [9] ∧
    (recover_rescale (some 20) [4] [6] [8] [3] [9] [[10, 5]]).2.2.2.1.get? 0
        = some (3 * 2) := by
  have h := recover_rescale_spec 20 [4] [6] [8] [3] [9] [[10, 5]] 0 4 6 8 3
    [(10 : ℝ), 5] rfl rfl rfl rfl rfl
  refine ⟨h.1, h.2.2.2.2.1, ?_⟩
  have h10 : npMax [(10 : ℝ), 5] = 10 := by
    norm_num [npMax, max_def]
  exact (h.2.2.2.2.2.2 rfl h10).2.2.2.1

end Scvelo
